import Mathlib

/-!
A shallow embedding of audio2mp3.py: a CLI orchestrator that converts audio
files to 320 kbps MP3 by invoking an external transcoder (ffmpeg) and an
external bitrate probe (ffprobe).

Modelling conventions:
* a filesystem path is its list of components (mirroring pathlib parts);
  paths compare lexicographically by components;
* the filesystem is an explicit state (existing regular files and
  directories); a successful transcode creates its output file;
* each external collaborator (probe, transcoder, glob enumeration) is an
  oracle recorded in an `Env`; every `subprocess.run` outcome is either an
  OS-level exception or a completed process with exit code and streams;
* `convert_file` additionally reports, next to the (success, message) pair
  the Python function returns, the return site taken (`RKind`) and the
  ordered list of external invocations it performed;
* Python's `sorted` is modelled by an insertion sort; on the duplicate-free
  lists it is applied to here, every comparison sort agrees.
-/

namespace Audio2mp3

/-- SUPPORTED_FORMATS: the recognized input extensions (audio2mp3.py lines 17-20). -/
def SUPPORTED_FORMATS : List String :=
  [".mp3", ".wav", ".flac", ".m4a", ".aac", ".ogg",
   ".opus", ".wma", ".aiff", ".ape", ".ac3", ".mp2"]

/-- A filesystem path, as its list of components. -/
structure Path where
  parts : List String
deriving DecidableEq

namespace Path

/-- The rendered path string (components joined by slashes). -/
def toStr (p : Path) : String := String.intercalate "/" p.parts

/-- pathlib name: the final component ("" for an empty path). -/
def name (p : Path) : String := (p.parts.getLast?).getD ""

/-- Split a file name at its last dot: some (chars before it, chars after it)
when the name contains a dot. -/
def splitLastDot : List Char → Option (List Char × List Char)
  | [] => none
  | c :: rest =>
    match splitLastDot rest with
    | some (st, sfx) => some (c :: st, sfx)
    | none => if c = '.' then some ([], rest) else none

/-- pathlib suffix: the extension from the last dot of the final component,
empty when the dot is leading, trailing or absent. -/
def suffix (p : Path) : String :=
  match splitLastDot (name p).data with
  | some (st, sfx) => if st ≠ [] ∧ sfx ≠ [] then String.mk ('.' :: sfx) else ""
  | none => ""

/-- pathlib stem: the final component without its extension. -/
def stem (p : Path) : String :=
  match splitLastDot (name p).data with
  | some (st, sfx) => if st ≠ [] ∧ sfx ≠ [] then String.mk st else name p
  | none => name p

/-- pathlib with_suffix: replace the extension of the final component. -/
def withSuffix (p : Path) (s : String) : Path :=
  ⟨p.parts.dropLast ++ [stem p ++ s]⟩

/-- The / operator on two paths. -/
def join (p q : Path) : Path := ⟨p.parts ++ q.parts⟩

/-- The / operator with a single-component file name. -/
def joinName (p : Path) (n : String) : Path := ⟨p.parts ++ [n]⟩

/-- pathlib relative_to: strip the directory's components when they lead the
path; none models the ValueError raised otherwise. -/
def relativeTo (p dir : Path) : Option Path :=
  if dir.parts.isPrefixOf p.parts then some ⟨p.parts.drop dir.parts.length⟩ else none

end Path

/-- Character-list comparison, strict lexicographic by code point. -/
def charsLt : List Char → List Char → Bool
  | [], [] => false
  | [], _ :: _ => true
  | _ :: _, [] => false
  | a :: as, b :: bs => if a = b then charsLt as bs else decide (a < b)

/-- Strict lexicographic string comparison. -/
def strLt (a b : String) : Bool := charsLt a.data b.data

/-- Non-strict lexicographic comparison of component lists. -/
def partsLe : List String → List String → Bool
  | [], _ => true
  | _ :: _, [] => false
  | a :: as, b :: bs => if strLt a b then true else if strLt b a then false else partsLe as bs

/-- Path ordering used by sorted(): lexicographic on components. -/
def Path.le (p q : Path) : Bool := partsLe p.parts q.parts

/-- ASCII lower-casing of a string (str.lower on extension strings). -/
def lowerStr (s : String) : String := String.mk (s.data.map Char.toLower)

/-- ASCII upper-casing of a string (str.upper on extension strings). -/
def upperStr (s : String) : String := String.mk (s.data.map Char.toUpper)

/-- The whitespace stripped by str.strip(). -/
def isPySpace (c : Char) : Bool :=
  c = ' ' || c = '\t' || c = '\n' || c = '\r' || c = '\x0b' || c = '\x0c'

/-- str.strip(): drop leading and trailing whitespace. -/
def pyStrip (s : String) : String :=
  String.mk (((s.data.dropWhile isPySpace).reverse.dropWhile isPySpace).reverse)

/-- Digit-list value in base 10. -/
def digitsVal (cs : List Char) : Nat :=
  cs.foldl (fun acc c => acc * 10 + (c.toNat - '0'.toNat)) 0

/-- Python int(s) on a stripped string: optional sign then decimal digits,
none models the ValueError raised on anything else. -/
def parsePyInt (s : String) : Option Int :=
  match s.data with
  | '-' :: ds =>
    if ds ≠ [] ∧ ds.all Char.isDigit then some (-(digitsVal ds : Int)) else none
  | '+' :: ds =>
    if ds ≠ [] ∧ ds.all Char.isDigit then some ((digitsVal ds : Int)) else none
  | ds =>
    if ds ≠ [] ∧ ds.all Char.isDigit then some ((digitsVal ds : Int)) else none

/-- Outcome of one subprocess.run call: an OS-level exception while spawning,
or a completed process with exit code and captured streams. -/
inductive ProcResult where
  | exn (msg : String)
  | ok (returncode : Int) (stdout : String) (stderr : String)
deriving DecidableEq

/-- External collaborators, as oracles: the ffprobe probe of a file, the
ffmpeg transcode of input to output (with whether -y was passed), and the
glob enumeration of a directory under a pattern. -/
structure Env where
  probe : Path → ProcResult
  transcode : Path → Path → Bool → ProcResult
  glob : Path → String → List Path

/-- Filesystem state: the existing regular files and directories. -/
structure FS where
  files : List Path
  dirs : List Path
deriving DecidableEq

/-- Whether a regular file exists at the path. -/
def FS.hasFile (fs : FS) (p : Path) : Bool := decide (p ∈ fs.files)

/-- pathlib is_dir. -/
def FS.isDir (fs : FS) (p : Path) : Bool := decide (p ∈ fs.dirs)

/-- pathlib exists: a file or directory is present at the path. -/
def FS.pathExists (fs : FS) (p : Path) : Bool := fs.hasFile p || fs.isDir p

/-- Record a newly created regular file. -/
def FS.addFile (fs : FS) (p : Path) : FS := ⟨p :: fs.files, fs.dirs⟩

/-- output_path.parent.mkdir(parents=True, exist_ok=True): create the chain of
ancestor directories of the path's parent. -/
def FS.mkdirParents (fs : FS) (p : Path) : FS :=
  ⟨fs.files, (List.range p.parts.dropLast.length).map (fun k => Path.mk (p.parts.take (k + 1))) ++ fs.dirs⟩

/-- AudioConverter's configuration (constructor arguments, lines 23-34). -/
structure Config where
  output_dir : Option Path
  overwrite : Bool
  keep_structure : Bool

/-- One external process invocation made by convert_file. -/
inductive ExtCall where
  | probe (p : Path)
  | transcode (input output : Path) (y : Bool)
deriving DecidableEq

/-- Which return site of convert_file / convert_directory produced a result. -/
inductive RKind where
  | notFound | unsupported | skipBitrate | skipExists | converted | failed | error
  | dirNotFound | notADir | noFiles
deriving DecidableEq

/-- The (success, message) pair convert_file returns, enriched with the return
site taken and the ordered external invocations made for this file. -/
structure FileResult where
  success : Bool
  message : String
  kind : RKind
  calls : List ExtCall
deriving DecidableEq

/-- AudioConverter._get_bitrate (lines 130-145): probe the file with ffprobe;
the container bitrate in kbps on success, none on any failure (spawn error,
non-zero exit, empty or unparsable output). -/
def get_bitrate (env : Env) (file_path : Path) : Option Int :=
  match env.probe file_path with
  | .exn _ => none
  | .ok rc out _ =>
    if rc = 0 ∧ pyStrip out ≠ "" then
      match parsePyInt (pyStrip out) with
      | some n => some (Int.fdiv n 1000)
      | none => none
    else none

/-- The Python test "bitrate and bitrate >= 320" on the optional kbps value
(line 84): none and 0 are falsy. -/
def bitrateOk (br : Option Int) : Bool :=
  match br with
  | none => false
  | some b => decide (b ≠ 0 ∧ 320 ≤ b)

/-- Output-path derivation of convert_file (lines 67-74): explicit argument,
else {output_dir}/{stem}.mp3, else the sibling {stem}.mp3. -/
def resolveOutput (cfg : Config) (input_path : Path) (output? : Option Path) : Path :=
  match output? with
  | some o => o
  | none =>
    match cfg.output_dir with
    | some d => Path.joinName d (Path.stem input_path ++ ".mp3")
    | none => Path.withSuffix input_path ".mp3"

/-- AudioConverter.convert_file (lines 47-128): validate the input, derive the
output path, create its parent directories, decide skips for an existing
output (probing an MP3 input's bitrate), else delegate to the external
transcoder and interpret its exit status. Returns the result and the
filesystem after the call. -/
def convert_file (cfg : Config) (env : Env) (fs : FS) (input_path : Path)
    (output? : Option Path) : FileResult × FS :=
  if fs.pathExists input_path = false then
    (⟨false, "Input file not found: " ++ input_path.toStr, .notFound, []⟩, fs)
  else if lowerStr (Path.suffix input_path) ∉ SUPPORTED_FORMATS then
    (⟨false, "Unsupported format: " ++ Path.suffix input_path, .unsupported, []⟩, fs)
  else
    let output_path := resolveOutput cfg input_path output?
    let fs1 := fs.mkdirParents output_path
    if fs1.pathExists output_path = true ∧ cfg.overwrite = false then
      if lowerStr (Path.suffix input_path) = ".mp3" then
        if bitrateOk (get_bitrate env input_path) then
          (⟨false, "Skipped (already 320kbps): " ++ input_path.name, .skipBitrate,
            [.probe input_path]⟩, fs1)
        else
          (⟨false, "Skipped (file exists): " ++ output_path.name, .skipExists,
            [.probe input_path]⟩, fs1)
      else
        (⟨false, "Skipped (file exists): " ++ output_path.name, .skipExists, []⟩, fs1)
    else
      match env.transcode input_path output_path cfg.overwrite with
      | .exn e =>
        (⟨false, "Error converting " ++ input_path.name ++ ": " ++ e, .error,
          [.transcode input_path output_path cfg.overwrite]⟩, fs1)
      | .ok rc _ stderr =>
        if rc = 0 then
          (⟨true, "Converted: " ++ input_path.name ++ " → " ++ output_path.name, .converted,
            [.transcode input_path output_path cfg.overwrite]⟩, fs1.addFile output_path)
        else
          (⟨false, "Conversion failed: " ++ input_path.name ++ "\n" ++ stderr, .failed,
            [.transcode input_path output_path cfg.overwrite]⟩, fs1)

/-- The path order as a relation, for the sort. -/
def pathLeRel (p q : Path) : Prop := Path.le p q = true

instance : DecidableRel pathLeRel := fun p q => instDecidableEqBool (Path.le p q) true

/-- sorted(set(...)) at line 178: drop duplicates, then sort. Python's sort is
modelled by an insertion sort; on the duplicate-free list produced by set()
the sorted result is the same for every comparison sort. -/
def sortedDedup (l : List Path) : List Path :=
  List.insertionSort pathLeRel l.dedup

/-- The collection loop of lines 170-172: for each extension, in iteration
order, append the glob matches of its lower-case and upper-case patterns.
globFn closes over the directory and the '**/*' or '*' pattern head. -/
def collectAudioFiles (globFn : String → List Path) : List String → List Path
  | [] => []
  | e :: rest => (globFn e ++ globFn (upperStr e)) ++ collectAudioFiles globFn rest

/-- The normalized candidate sequence of convert_directory: collected glob
matches, deduplicated and sorted (lines 166-178). -/
def candidateList (globFn : String → List Path) (exts : List String) : List Path :=
  sortedDedup (collectAudioFiles globFn exts)

/-- Per-candidate output path in convert_directory (lines 186-196): under an
output root, mirror the path relative to the input directory when structure
is kept and traversal is recursive, else flatten to {root}/{stem}.mp3;
without a root, the sibling .mp3. none models the ValueError relative_to
raises when the candidate is not under the input directory. -/
def dirOutputPath (cfg : Config) (input_dir : Path) (recursive : Bool)
    (audio_file : Path) : Option Path :=
  match cfg.output_dir with
  | some od =>
    if cfg.keep_structure && recursive then
      (audio_file.relativeTo input_dir).map (fun rel => Path.join od (rel.withSuffix ".mp3"))
    else
      some (Path.joinName od (audio_file.stem ++ ".mp3"))
  | none => some (audio_file.withSuffix ".mp3")

/-- The sequential loop of convert_directory (lines 183-199): process each
candidate in order with convert_file, threading the filesystem; none models
the run aborting on an uncaught relative_to error. -/
def runFiles (cfg : Config) (env : Env) (input_dir : Path) (recursive : Bool) :
    FS → List Path → Option (List FileResult × FS)
  | fs, [] => some ([], fs)
  | fs, f :: rest =>
    match dirOutputPath cfg input_dir recursive f with
    | none => none
    | some out =>
      let r := convert_file cfg env fs f (some out)
      match runFiles cfg env input_dir recursive r.2 rest with
      | none => none
      | some (results, fs2) => some (r.1 :: results, fs2)

/-- AudioConverter.convert_directory (lines 147-202): validate the directory,
enumerate candidates by extension in both case forms, normalize them with
sorted(set(...)), and convert each in order. extOrder is the arbitrary
iteration order of the SUPPORTED_FORMATS set. -/
def convert_directory (cfg : Config) (env : Env) (fs : FS) (input_dir : Path)
    (recursive : Bool) (extOrder : List String) : Option (List FileResult × FS) :=
  if fs.pathExists input_dir = false then
    some ([⟨false, "Directory not found: " ++ input_dir.toStr, .dirNotFound, []⟩], fs)
  else if fs.isDir input_dir = false then
    some ([⟨false, "Not a directory: " ++ input_dir.toStr, .notADir, []⟩], fs)
  else
    let pattern := if recursive then "**/*" else "*"
    let audio_files := collectAudioFiles (fun e => env.glob input_dir (pattern ++ e)) extOrder
    if audio_files.isEmpty then
      some ([⟨false, "No audio files found in: " ++ input_dir.toStr, .noFiles, []⟩], fs)
    else
      runFiles cfg env input_dir recursive fs (sortedDedup audio_files)

/-- The parsed command line (lines 231-259). -/
structure Args where
  input : Path
  output : Option Path
  overwrite : Bool
  no_recursive : Bool
  no_structure : Bool

/-- main (lines 205-297): build the configuration, dispatch on the input kind
and reduce the results to the process exit code. A missing input path exits
with 1; an aborted directory run (uncaught exception) also exits non-zero. -/
def mainRun (args : Args) (env : Env) (fs : FS) (extOrder : List String) : Nat :=
  let cfg : Config := ⟨args.output, args.overwrite, !args.no_structure⟩
  if fs.hasFile args.input then
    let r := convert_file cfg env fs args.input args.output
    if r.1.success then 0 else 1
  else if fs.isDir args.input then
    match convert_directory cfg env fs args.input (!args.no_recursive) extOrder with
    | none => 1
    | some (results, _) =>
      let successful := (results.filter (fun r => r.success)).length
      let failed := results.length - successful
      if failed = 0 then 0 else 1
  else 1

/-- Whether a result is one of the two skip variants. -/
def FileResult.isSkip (r : FileResult) : Bool :=
  match r.kind with
  | .skipBitrate => true
  | .skipExists => true
  | _ => false

/-- Whether an external call is a transcoder invocation. -/
def ExtCall.isTranscode : ExtCall → Bool
  | .transcode _ _ _ => true
  | .probe _ => false

/-- No transcoder invocation occurs in the call list. -/
def noTranscodeCall (calls : List ExtCall) : Bool :=
  calls.all (fun c => !c.isTranscode)

theorem charsLt_asymm : ∀ {a b : List Char}, charsLt a b = true → charsLt b a = false := by
  intro a
  induction a with
  | nil =>
    intro b h
    cases b with
    | nil => simp [charsLt] at h
    | cons y ys => simp [charsLt]
  | cons x xs ih =>
    intro b h
    cases b with
    | nil => simp [charsLt] at h
    | cons y ys =>
      simp only [charsLt] at h ⊢
      by_cases hxy : x = y
      · subst hxy
        rw [if_pos rfl] at h ⊢
        exact ih h
      · have hyx : ¬ y = x := fun e => hxy e.symm
        rw [if_neg hxy] at h
        rw [if_neg hyx]
        exact decide_eq_false (lt_asymm (of_decide_eq_true h))

theorem charsLt_conn : ∀ {a b : List Char}, charsLt a b = false → charsLt b a = false → a = b := by
  intro a
  induction a with
  | nil =>
    intro b h1 _
    cases b with
    | nil => rfl
    | cons y ys => simp [charsLt] at h1
  | cons x xs ih =>
    intro b h1 h2
    cases b with
    | nil => simp [charsLt] at h2
    | cons y ys =>
      simp only [charsLt] at h1 h2
      by_cases hxy : x = y
      · subst hxy
        rw [if_pos rfl] at h1 h2
        rw [ih h1 h2]
      · have hyx : ¬ y = x := fun e => hxy e.symm
        rw [if_neg hxy] at h1
        rw [if_neg hyx] at h2
        rcases lt_trichotomy x y with h | h | h
        · exact absurd h (of_decide_eq_false h1)
        · exact absurd h hxy
        · exact absurd h (of_decide_eq_false h2)

theorem charsLt_trans :
    ∀ (a b c : List Char), charsLt a b = true → charsLt b c = true → charsLt a c = true := by
  intro a
  induction a with
  | nil =>
    intro b c h1 h2
    cases b with
    | nil => simp [charsLt] at h1
    | cons y ys =>
      cases c with
      | nil => simp [charsLt] at h2
      | cons z zs => simp [charsLt]
  | cons x xs ih =>
    intro b c h1 h2
    cases b with
    | nil => simp [charsLt] at h1
    | cons y ys =>
      cases c with
      | nil => simp [charsLt] at h2
      | cons z zs =>
        simp only [charsLt] at h1 h2 ⊢
        by_cases hxy : x = y
        · subst hxy
          rw [if_pos rfl] at h1
          by_cases hxz : x = z
          · subst hxz
            rw [if_pos rfl] at h2
            rw [if_pos rfl]
            exact ih ys zs h1 h2
          · rw [if_neg hxz] at h2
            rw [if_neg hxz]
            exact h2
        · rw [if_neg hxy] at h1
          by_cases hyz : y = z
          · subst hyz
            rw [if_neg hxy]
            exact h1
          · rw [if_neg hyz] at h2
            have hlt : x < z := lt_trans (of_decide_eq_true h1) (of_decide_eq_true h2)
            rw [if_neg (ne_of_lt hlt)]
            exact decide_eq_true hlt

theorem strLt_asymm {a b : String} (h : strLt a b = true) : strLt b a = false :=
  charsLt_asymm h

theorem strLt_conn {a b : String} (h1 : strLt a b = false) (h2 : strLt b a = false) : a = b := by
  cases a with
  | mk da =>
    cases b with
    | mk db => exact congrArg String.mk (charsLt_conn h1 h2)

theorem strLt_trans {a b c : String} (h1 : strLt a b = true) (h2 : strLt b c = true) :
    strLt a c = true :=
  charsLt_trans a.data b.data c.data h1 h2

theorem strLt_irrefl (a : String) : strLt a a = false := by
  cases h : strLt a a
  · rfl
  · have := strLt_asymm h
    rw [h] at this
    exact this

theorem partsLe_total : ∀ (a b : List String), partsLe a b = true ∨ partsLe b a = true := by
  intro a
  induction a with
  | nil => intro b; exact Or.inl rfl
  | cons x xs ih =>
    intro b
    cases b with
    | nil => exact Or.inr rfl
    | cons y ys =>
      simp only [partsLe]
      cases hxy : strLt x y
      · cases hyx : strLt y x
        · have hxyeq : x = y := strLt_conn hxy hyx
          subst hxyeq
          simp only [Bool.false_eq_true, if_false]
          exact ih ys
        · simp
      · simp

theorem partsLe_trans :
    ∀ (a b c : List String), partsLe a b = true → partsLe b c = true → partsLe a c = true := by
  intro a
  induction a with
  | nil => intro b c _ _; rfl
  | cons x xs ih =>
    intro b c h1 h2
    cases b with
    | nil => simp [partsLe] at h1
    | cons y ys =>
      cases c with
      | nil => simp [partsLe] at h2
      | cons z zs =>
        simp only [partsLe] at h1 h2 ⊢
        cases hxy : strLt x y
        · cases hyx : strLt y x
          · have hxyeq : x = y := strLt_conn hxy hyx
            subst hxyeq
            rw [hxy] at h1
            simp only [Bool.false_eq_true, if_false] at h1
            cases hxz : strLt x z
            · cases hzx : strLt z x
              · have hxzeq : x = z := strLt_conn hxz hzx
                subst hxzeq
                rw [hxz] at h2
                simp only [Bool.false_eq_true, if_false] at h2
                simp only [Bool.false_eq_true, if_false]
                exact ih ys zs h1 h2
              · rw [hxz, hzx] at h2
                simp at h2
            · simp
          · rw [hxy, hyx] at h1
            simp at h1
        · cases hyz : strLt y z
          · cases hzy : strLt z y
            · have hyzeq : y = z := strLt_conn hyz hzy
              subst hyzeq
              rw [hxy]
              simp
            · rw [hyz, hzy] at h2
              simp at h2
          · rw [strLt_trans hxy hyz]
            simp

theorem partsLe_antisymm :
    ∀ (a b : List String), partsLe a b = true → partsLe b a = true → a = b := by
  intro a
  induction a with
  | nil =>
    intro b _ h2
    cases b with
    | nil => rfl
    | cons y ys => simp [partsLe] at h2
  | cons x xs ih =>
    intro b h1 h2
    cases b with
    | nil => simp [partsLe] at h1
    | cons y ys =>
      simp only [partsLe] at h1 h2
      cases hxy : strLt x y
      · cases hyx : strLt y x
        · have hxyeq : x = y := strLt_conn hxy hyx
          subst hxyeq
          rw [strLt_irrefl x] at h1 h2
          simp only [Bool.false_eq_true, if_false] at h1 h2
          rw [ih ys h1 h2]
        · rw [hxy, hyx] at h1
          simp at h1
      · have hyx : strLt y x = false := strLt_asymm hxy
        rw [hyx, hxy] at h2
        simp at h2

instance : IsTotal Path pathLeRel :=
  ⟨fun p q => partsLe_total p.parts q.parts⟩

instance : IsTrans Path pathLeRel :=
  ⟨fun p q r h1 h2 => partsLe_trans p.parts q.parts r.parts h1 h2⟩

instance : IsAntisymm Path pathLeRel :=
  ⟨fun p q h1 h2 => by
    cases p with
    | mk pp =>
      cases q with
      | mk qp => exact congrArg Path.mk (partsLe_antisymm pp qp h1 h2)⟩

theorem isPrefixOf_self_append (l t : List String) : l.isPrefixOf (l ++ t) = true := by
  induction l with
  | nil => simp [List.isPrefixOf]
  | cons a as ih => simp [List.isPrefixOf, ih]

theorem pathExists_mkdirParents (fs : FS) (q p : Path) (h : fs.pathExists p = true) :
    (fs.mkdirParents q).pathExists p = true := by
  simp only [FS.pathExists, FS.hasFile, FS.isDir, FS.mkdirParents, Bool.or_eq_true,
    decide_eq_true_iff] at h ⊢
  rcases h with h | h
  · exact Or.inl h
  · exact Or.inr (List.mem_append_right _ h)

/-- Fixtures: a concrete environment whose probe and transcoder both succeed
(probe reports 320000 bits per second). -/
def envOk : Env :=
  ⟨fun _ => .ok 0 "320000" "", fun _ _ _ => .ok 0 "" "", fun _ _ => []⟩

/-- Fixtures: a concrete environment whose subprocess calls all fail to spawn. -/
def envDown : Env :=
  ⟨fun _ => .exn "spawn failure", fun _ _ _ => .exn "spawn failure", fun _ _ => []⟩

/-- C5: convertFile derives the output path with strict precedence: an explicit
output argument is used as given; otherwise {outputRoot}/{stem}.mp3 when an
output root is configured; otherwise the sibling {stem}.mp3. Moreover every
transcoder invocation convert_file makes targets exactly the path so derived. -/
theorem output_path_precedence (cfg : Config) (env : Env) (fs : FS)
    (input o d : Path) (ow ks : Bool) (output? : Option Path) :
    resolveOutput cfg input (some o) = o ∧
    resolveOutput ⟨some d, ow, ks⟩ input none = Path.joinName d (Path.stem input ++ ".mp3") ∧
    resolveOutput ⟨none, ow, ks⟩ input none = Path.withSuffix input ".mp3" ∧
    (∀ i out y, ExtCall.transcode i out y ∈ (convert_file cfg env fs input output?).1.calls →
      out = resolveOutput cfg input output?) := by
  refine ⟨rfl, rfl, rfl, ?_⟩
  intro i out y hmem
  unfold convert_file at hmem
  by_cases h1 : fs.pathExists input = false
  · simp [h1] at hmem
  · simp only [h1, if_false] at hmem
    by_cases h2 : lowerStr (Path.suffix input) ∉ SUPPORTED_FORMATS
    · simp [h2] at hmem
    · simp only [h2, if_false] at hmem
      by_cases h3 : (fs.mkdirParents (resolveOutput cfg input output?)).pathExists
          (resolveOutput cfg input output?) = true ∧ cfg.overwrite = false
      · simp only [if_pos h3] at hmem
        by_cases h4 : lowerStr (Path.suffix input) = ".mp3"
        · simp only [if_pos h4] at hmem
          by_cases h5 : bitrateOk (get_bitrate env input) = true
          · simp [h5] at hmem
          · simp [h5] at hmem
        · simp [h4] at hmem
      · simp only [if_neg h3] at hmem
        cases htc : env.transcode input (resolveOutput cfg input output?) cfg.overwrite with
        | exn e =>
          rw [htc] at hmem
          simp at hmem
          exact hmem.2.1
        | ok rc so se =>
          rw [htc] at hmem
          by_cases h6 : rc = 0
          · simp [h6] at hmem
            exact hmem.2.1
          · simp [h6] at hmem
            exact hmem.2.1

/-- C5 witness: with no explicit output and no output root, the transcoder is
invoked on the sibling .mp3 path. -/
theorem output_path_precedence_witness :
    resolveOutput ⟨none, false, true⟩ ⟨["a", "b.flac"]⟩ (some ⟨["c.mp3"]⟩) = ⟨["c.mp3"]⟩ ∧
    resolveOutput ⟨some ⟨["d"]⟩, false, true⟩ ⟨["a", "b.flac"]⟩ none
      = Path.joinName ⟨["d"]⟩ (Path.stem ⟨["a", "b.flac"]⟩ ++ ".mp3") ∧
    resolveOutput ⟨none, false, true⟩ ⟨["a", "b.flac"]⟩ none
      = Path.withSuffix ⟨["a", "b.flac"]⟩ ".mp3" ∧
    (ExtCall.transcode ⟨["a", "b.flac"]⟩ ⟨["a", "b.mp3"]⟩ false ∈
      (convert_file ⟨none, false, true⟩ envOk ⟨[⟨["a", "b.flac"]⟩], [⟨["a"]⟩]⟩
        ⟨["a", "b.flac"]⟩ none).1.calls →
      (⟨["a", "b.mp3"]⟩ : Path) = resolveOutput ⟨none, false, true⟩ ⟨["a", "b.flac"]⟩ none) := by
  have h := output_path_precedence ⟨none, false, true⟩ envOk ⟨[⟨["a", "b.flac"]⟩], [⟨["a"]⟩]⟩
    ⟨["a", "b.flac"]⟩ ⟨["c.mp3"]⟩ ⟨["d"]⟩ false true none
  exact ⟨h.1, h.2.1, h.2.2.1, fun hm => h.2.2.2 ⟨["a", "b.flac"]⟩ ⟨["a", "b.mp3"]⟩ false hm⟩

/-- C6: for an existing input whose lower-cased extension is not in
SUPPORTED_FORMATS, convert_file fails with the unsupported-format message and
invokes no external process at all. -/
theorem unsupported_format_failure (cfg : Config) (env : Env) (fs : FS)
    (input : Path) (output? : Option Path)
    (hex : fs.pathExists input = true)
    (hsup : lowerStr (Path.suffix input) ∉ SUPPORTED_FORMATS) :
    (convert_file cfg env fs input output?).1.success = false ∧
    (convert_file cfg env fs input output?).1.kind = RKind.unsupported ∧
    (convert_file cfg env fs input output?).1.message
      = "Unsupported format: " ++ Path.suffix input ∧
    (convert_file cfg env fs input output?).1.calls = [] := by
  unfold convert_file
  rw [hex]
  simp [hsup]

/-- C6 witness: a .txt file is rejected without any external call. -/
theorem unsupported_format_failure_witness :
    (convert_file ⟨none, false, true⟩ envOk ⟨[⟨["a.txt"]⟩], []⟩ ⟨["a.txt"]⟩ none).1.success = false ∧
    (convert_file ⟨none, false, true⟩ envOk ⟨[⟨["a.txt"]⟩], []⟩ ⟨["a.txt"]⟩ none).1.kind
      = RKind.unsupported ∧
    (convert_file ⟨none, false, true⟩ envOk ⟨[⟨["a.txt"]⟩], []⟩ ⟨["a.txt"]⟩ none).1.message
      = "Unsupported format: " ++ Path.suffix ⟨["a.txt"]⟩ ∧
    (convert_file ⟨none, false, true⟩ envOk ⟨[⟨["a.txt"]⟩], []⟩ ⟨["a.txt"]⟩ none).1.calls = [] :=
  unsupported_format_failure ⟨none, false, true⟩ envOk ⟨[⟨["a.txt"]⟩], []⟩ ⟨["a.txt"]⟩ none
    (by decide) (by decide)

/-- C1: when the derived output path already exists and overwrite is false,
convert_file returns a skip (non-success) result and never calls the
transcoder; the skip is the "already 320kbps" variant exactly when the
input's lower-cased extension is .mp3 and the probe's truthy kbps value is
at least 320, and the "file exists" variant otherwise (including probe
failures and unparsable probe output, which make get_bitrate none). -/
theorem existing_output_skip (cfg : Config) (env : Env) (fs : FS) (input : Path)
    (output? : Option Path)
    (hov : cfg.overwrite = false)
    (hex : fs.pathExists input = true)
    (hsup : lowerStr (Path.suffix input) ∈ SUPPORTED_FORMATS)
    (hout : fs.pathExists (resolveOutput cfg input output?) = true) :
    (convert_file cfg env fs input output?).1.success = false ∧
    (convert_file cfg env fs input output?).1.isSkip = true ∧
    noTranscodeCall (convert_file cfg env fs input output?).1.calls = true ∧
    ((convert_file cfg env fs input output?).1.kind = RKind.skipBitrate ↔
      (lowerStr (Path.suffix input) = ".mp3" ∧ bitrateOk (get_bitrate env input) = true)) ∧
    ((convert_file cfg env fs input output?).1.kind = RKind.skipExists ↔
      ¬ (lowerStr (Path.suffix input) = ".mp3" ∧ bitrateOk (get_bitrate env input) = true)) := by
  have hmk : (fs.mkdirParents (resolveOutput cfg input output?)).pathExists
      (resolveOutput cfg input output?) = true :=
    pathExists_mkdirParents fs _ _ hout
  have hmp3 : (".mp3" : String) ∈ SUPPORTED_FORMATS := by decide
  by_cases hm : lowerStr (Path.suffix input) = ".mp3"
  · by_cases hb : bitrateOk (get_bitrate env input) = true
    · simp [convert_file, hex, hsup, hmk, hov, hm, hb, hmp3, FileResult.isSkip,
        noTranscodeCall, ExtCall.isTranscode]
    · simp [convert_file, hex, hsup, hmk, hov, hm, hb, hmp3, FileResult.isSkip,
        noTranscodeCall, ExtCall.isTranscode]
  · simp [convert_file, hex, hsup, hmk, hov, hm, FileResult.isSkip,
      noTranscodeCall, ExtCall.isTranscode]

/-- C1 witness: an existing .mp3 input probed at 320000 bits per second whose
sibling output (itself) exists is skipped with the bitrate variant. -/
theorem existing_output_skip_witness :
    (convert_file ⟨none, false, true⟩ envOk ⟨[⟨["a.mp3"]⟩], []⟩ ⟨["a.mp3"]⟩ none).1.success = false ∧
    (convert_file ⟨none, false, true⟩ envOk ⟨[⟨["a.mp3"]⟩], []⟩ ⟨["a.mp3"]⟩ none).1.isSkip = true ∧
    noTranscodeCall (convert_file ⟨none, false, true⟩ envOk ⟨[⟨["a.mp3"]⟩], []⟩
      ⟨["a.mp3"]⟩ none).1.calls = true ∧
    ((convert_file ⟨none, false, true⟩ envOk ⟨[⟨["a.mp3"]⟩], []⟩ ⟨["a.mp3"]⟩ none).1.kind
        = RKind.skipBitrate ↔
      (lowerStr (Path.suffix ⟨["a.mp3"]⟩) = ".mp3" ∧
        bitrateOk (get_bitrate envOk ⟨["a.mp3"]⟩) = true)) ∧
    ((convert_file ⟨none, false, true⟩ envOk ⟨[⟨["a.mp3"]⟩], []⟩ ⟨["a.mp3"]⟩ none).1.kind
        = RKind.skipExists ↔
      ¬ (lowerStr (Path.suffix ⟨["a.mp3"]⟩) = ".mp3" ∧
        bitrateOk (get_bitrate envOk ⟨["a.mp3"]⟩) = true)) :=
  existing_output_skip ⟨none, false, true⟩ envOk ⟨[⟨["a.mp3"]⟩], []⟩ ⟨["a.mp3"]⟩ none
    rfl (by decide) (by decide) (by decide)

/-- C2: a skip outcome implies no transcoder invocation occurred for that file,
and whether the outcome is a skip does not depend on the external environment
at all (the decision is fixed by the filesystem and configuration before any
external process result could be observed). -/
theorem skip_precedes_transcoder (cfg : Config) (env env' : Env) (fs : FS)
    (input : Path) (output? : Option Path)
    (h : (convert_file cfg env fs input output?).1.isSkip = true) :
    noTranscodeCall (convert_file cfg env fs input output?).1.calls = true ∧
    (convert_file cfg env' fs input output?).1.isSkip = true := by
  by_cases h1 : fs.pathExists input = false
  · simp [convert_file, h1, FileResult.isSkip] at h
  · replace h1 : fs.pathExists input = true := by
      cases hv : fs.pathExists input
      · exact absurd hv h1
      · rfl
    by_cases h2 : lowerStr (Path.suffix input) ∈ SUPPORTED_FORMATS
    · by_cases h3 : ((fs.mkdirParents (resolveOutput cfg input output?)).pathExists
          (resolveOutput cfg input output?) = true ∧ cfg.overwrite = false)
      · have hmp3 : (".mp3" : String) ∈ SUPPORTED_FORMATS := by decide
        by_cases h4 : lowerStr (Path.suffix input) = ".mp3"
        · constructor
          · by_cases h5 : bitrateOk (get_bitrate env input) = true
            · simp [convert_file, h1, h2, h3, h4, h5, hmp3, noTranscodeCall, ExtCall.isTranscode]
            · simp [convert_file, h1, h2, h3, h4, h5, hmp3, noTranscodeCall, ExtCall.isTranscode]
          · by_cases h5 : bitrateOk (get_bitrate env' input) = true
            · simp [convert_file, h1, h2, h3, h4, h5, hmp3, FileResult.isSkip]
            · simp [convert_file, h1, h2, h3, h4, h5, hmp3, FileResult.isSkip]
        · constructor
          · simp [convert_file, h1, h2, h3, h4, noTranscodeCall]
          · simp [convert_file, h1, h2, h3, h4, FileResult.isSkip]
      · exfalso
        cases htc : env.transcode input (resolveOutput cfg input output?) cfg.overwrite with
        | exn e =>
          simp [convert_file, h1, h2, h3, htc, FileResult.isSkip] at h
        | ok rc so se =>
          by_cases h6 : rc = 0
          · simp [convert_file, h1, h2, h3, htc, h6, FileResult.isSkip] at h
          · simp [convert_file, h1, h2, h3, htc, h6, FileResult.isSkip] at h
    · simp [convert_file, h1, h2, FileResult.isSkip] at h

/-- C2 witness: an existing-output skip under one environment carries no
transcoder call and stays a skip under a spawn-failing environment. -/
theorem skip_precedes_transcoder_witness :
    noTranscodeCall (convert_file ⟨none, false, true⟩ envOk ⟨[⟨["a.mp3"]⟩], []⟩
      ⟨["a.mp3"]⟩ none).1.calls = true ∧
    (convert_file ⟨none, false, true⟩ envDown ⟨[⟨["a.mp3"]⟩], []⟩ ⟨["a.mp3"]⟩ none).1.isSkip
      = true :=
  skip_precedes_transcoder ⟨none, false, true⟩ envOk envDown ⟨[⟨["a.mp3"]⟩], []⟩
    ⟨["a.mp3"]⟩ none (by decide)

/-- C7: when convert_file reaches the transcoder, exit status 0 yields the
success result with the "Converted: name → name" message, a non-zero status
yields a failure carrying the captured error stream, and a spawn exception is
caught and returned as a failure result. -/
theorem transcoder_exit_interpretation (cfg : Config) (env : Env) (fs : FS)
    (input out : Path) (output? : Option Path)
    (hex : fs.pathExists input = true)
    (hsup : lowerStr (Path.suffix input) ∈ SUPPORTED_FORMATS)
    (hres : resolveOutput cfg input output? = out)
    (hns : ¬ ((fs.mkdirParents out).pathExists out = true ∧ cfg.overwrite = false)) :
    (∀ so se, env.transcode input out cfg.overwrite = .ok 0 so se →
      (convert_file cfg env fs input output?).1 =
        ⟨true, "Converted: " ++ input.name ++ " → " ++ out.name, .converted,
         [.transcode input out cfg.overwrite]⟩) ∧
    (∀ rc so se, env.transcode input out cfg.overwrite = .ok rc so se → rc ≠ 0 →
      (convert_file cfg env fs input output?).1 =
        ⟨false, "Conversion failed: " ++ input.name ++ "\n" ++ se, .failed,
         [.transcode input out cfg.overwrite]⟩) ∧
    (∀ e, env.transcode input out cfg.overwrite = .exn e →
      (convert_file cfg env fs input output?).1 =
        ⟨false, "Error converting " ++ input.name ++ ": " ++ e, .error,
         [.transcode input out cfg.overwrite]⟩) := by
  subst hres
  refine ⟨?_, ?_, ?_⟩
  · intro so se htc
    simp [convert_file, hex, hsup, hns, htc]
  · intro rc so se htc hrc
    simp [convert_file, hex, hsup, hns, htc, hrc]
  · intro e htc
    simp [convert_file, hex, hsup, hns, htc]

/-- C7 witness: a zero exit status produces the success result with the
converted message. -/
theorem transcoder_exit_interpretation_witness :
    (convert_file ⟨none, false, true⟩ envOk ⟨[⟨["a", "b.flac"]⟩], []⟩
      ⟨["a", "b.flac"]⟩ none).1 =
      ⟨true, "Converted: " ++ Path.name ⟨["a", "b.flac"]⟩ ++ " → " ++ Path.name ⟨["a", "b.mp3"]⟩,
       .converted, [.transcode ⟨["a", "b.flac"]⟩ ⟨["a", "b.mp3"]⟩ false]⟩ :=
  (transcoder_exit_interpretation ⟨none, false, true⟩ envOk ⟨[⟨["a", "b.flac"]⟩], []⟩
    ⟨["a", "b.flac"]⟩ ⟨["a", "b.mp3"]⟩ none (by decide) (by decide) rfl (by decide)).1 "" "" rfl

/-- C9: with a successful probe, the "already 320kbps" condition holds exactly
when the probe's reported bits-per-second value, floor-divided by 1000,
reaches 320 — that is, exactly when the raw value is at least 320000; an
unparsable probe output never satisfies it. -/
theorem bitrate_threshold_320000 (env : Env) (p : Path) (out err : String)
    (hp : env.probe p = .ok 0 out err) :
    (∀ n : Int, parsePyInt (pyStrip out) = some n →
      (bitrateOk (get_bitrate env p) = true ↔ 320000 ≤ n)) ∧
    (parsePyInt (pyStrip out) = none → bitrateOk (get_bitrate env p) = false) := by
  constructor
  · intro n hn
    have hne : pyStrip out ≠ "" := by
      intro hc
      rw [hc] at hn
      have hz : parsePyInt "" = none := rfl
      rw [hz] at hn
      exact Option.noConfusion hn
    have hg : get_bitrate env p = some (Int.fdiv n 1000) := by
      simp [get_bitrate, hp, hne, hn]
    have hfd : Int.fdiv n 1000 = n / 1000 := Int.fdiv_eq_ediv n (by norm_num)
    rw [hg]
    simp only [bitrateOk, hfd, decide_eq_true_iff]
    omega
  · intro hn
    by_cases hne : pyStrip out = ""
    · simp [get_bitrate, hp, hne, bitrateOk]
    · simp [get_bitrate, hp, hne, hn, bitrateOk]

/-- C9 witness: a probe reporting 320000 bits per second satisfies the skip
condition, and one reporting 319999 does not. -/
theorem bitrate_threshold_320000_witness :
    (bitrateOk (get_bitrate envOk ⟨["a.mp3"]⟩) = true ↔ (320000 : Int) ≤ 320000) ∧
    (bitrateOk (get_bitrate ⟨fun _ => .ok 0 "319999" "", fun _ _ _ => .exn "", fun _ _ => []⟩
      ⟨["a.mp3"]⟩) = true ↔ (320000 : Int) ≤ 319999) :=
  ⟨(bitrate_threshold_320000 envOk ⟨["a.mp3"]⟩ "320000" "" rfl).1 320000 (by decide),
   (bitrate_threshold_320000 ⟨fun _ => .ok 0 "319999" "", fun _ _ _ => .exn "", fun _ _ => []⟩
      ⟨["a.mp3"]⟩ "319999" "" rfl).1 319999 (by decide)⟩

theorem mem_collectAudioFiles (g : String → List Path) (exts : List String) (x : Path) :
    x ∈ collectAudioFiles g exts ↔ ∃ e ∈ exts, x ∈ g e ∨ x ∈ g (upperStr e) := by
  induction exts with
  | nil => simp [collectAudioFiles]
  | cons e rest ih =>
    simp only [collectAudioFiles, List.mem_append, ih, List.mem_cons]
    constructor
    · intro h
      rcases h with (h | h) | ⟨e', he', h⟩
      · exact ⟨e, Or.inl rfl, Or.inl h⟩
      · exact ⟨e, Or.inl rfl, Or.inr h⟩
      · exact ⟨e', Or.inr he', h⟩
    · intro h
      rcases h with ⟨e', he' | he', h⟩
      · subst he'
        rcases h with h | h
        · exact Or.inl (Or.inl h)
        · exact Or.inl (Or.inr h)
      · exact Or.inr ⟨e', he', h⟩

theorem candidateList_nodup (g : String → List Path) (exts : List String) :
    (candidateList g exts).Nodup :=
  ((List.perm_insertionSort pathLeRel _).nodup_iff).mpr (List.nodup_dedup _)

theorem candidateList_sorted (g : String → List Path) (exts : List String) :
    (candidateList g exts).Sorted pathLeRel :=
  List.sorted_insertionSort pathLeRel _

theorem candidateList_ext (g g' : String → List Path) (exts exts' : List String)
    (hg : ∀ pat x, x ∈ g pat ↔ x ∈ g' pat)
    (he : ∀ e, e ∈ exts ↔ e ∈ exts') :
    candidateList g exts = candidateList g' exts' := by
  have hmem : ∀ x, x ∈ (collectAudioFiles g exts).dedup ↔
      x ∈ (collectAudioFiles g' exts').dedup := by
    intro x
    rw [List.mem_dedup, List.mem_dedup, mem_collectAudioFiles, mem_collectAudioFiles]
    constructor
    · intro hh
      rcases hh with ⟨e, he1, h | h⟩
      · exact ⟨e, (he e).mp he1, Or.inl ((hg e x).mp h)⟩
      · exact ⟨e, (he e).mp he1, Or.inr ((hg (upperStr e) x).mp h)⟩
    · intro hh
      rcases hh with ⟨e, he1, h | h⟩
      · exact ⟨e, (he e).mpr he1, Or.inl ((hg e x).mpr h)⟩
      · exact ⟨e, (he e).mpr he1, Or.inr ((hg (upperStr e) x).mpr h)⟩
  have hperm : (collectAudioFiles g exts).dedup.Perm (collectAudioFiles g' exts').dedup :=
    (List.perm_ext_iff_of_nodup (List.nodup_dedup _) (List.nodup_dedup _)).mpr hmem
  have hp2 : (candidateList g exts).Perm (candidateList g' exts') :=
    ((List.perm_insertionSort pathLeRel _).trans hperm).trans
      (List.perm_insertionSort pathLeRel _).symm
  exact List.eq_of_perm_of_sorted hp2 (candidateList_sorted g exts) (candidateList_sorted g' exts')

/-- C3: the candidate sequence convert_directory processes is deterministic:
it has no duplicates (even when a file matches both the lower-case and the
upper-case glob form), it is sorted lexicographically, and it is identical
for any two runs whose glob enumerations return the same members (in any
order) and whose extension-set iteration orders have the same members. -/
theorem candidates_deterministic_sorted (g g' : String → List Path)
    (exts exts' : List String)
    (hg : ∀ pat x, x ∈ g pat ↔ x ∈ g' pat)
    (he : ∀ e, e ∈ exts ↔ e ∈ exts') :
    candidateList g exts = candidateList g' exts' ∧
    (candidateList g exts).Nodup ∧
    (candidateList g exts).Sorted pathLeRel :=
  ⟨candidateList_ext g g' exts exts' hg he, candidateList_nodup g exts,
   candidateList_sorted g exts⟩

/-- Fixtures: two glob oracles over the same filesystem state, enumerating the
same matches in different orders and multiplicities. -/
def g1 : String → List Path := fun pat =>
  if pat = ".mp3" then [⟨["b"]⟩, ⟨["a"]⟩] else []

def g2 : String → List Path := fun pat =>
  if pat = ".mp3" then [⟨["a"]⟩, ⟨["b"]⟩, ⟨["a"]⟩] else []

/-- C3 witness: the two enumeration orders yield the same duplicate-free
sorted candidate list. -/
theorem candidates_deterministic_sorted_witness :
    candidateList g1 [".mp3"] = candidateList g2 [".mp3"] ∧
    (candidateList g1 [".mp3"]).Nodup ∧
    (candidateList g1 [".mp3"]).Sorted pathLeRel :=
  candidates_deterministic_sorted g1 g2 [".mp3"] [".mp3"]
    (by
      intro pat x
      by_cases hp : pat = ".mp3"
      · simp only [g1, g2, hp, if_true, List.mem_cons, List.not_mem_nil]
        tauto
      · simp [g1, g2, hp])
    (fun _ => Iff.rfl)

theorem name_append_two (A : Path) (a b : String) :
    Path.name ⟨A.parts ++ [a, b]⟩ = b := by
  simp [Path.name, List.getLast?_append]

theorem stem_append_sub_xwav (A : Path) :
    Path.stem ⟨A.parts ++ ["sub", "x.wav"]⟩ = "x" := by
  unfold Path.stem
  rw [name_append_two]
  rfl

theorem relativeTo_append (A : Path) (l : List String) :
    Path.relativeTo ⟨A.parts ++ l⟩ A = some ⟨l⟩ := by
  simp [Path.relativeTo, isPrefixOf_self_append, List.drop_left]

/-- C4: directory-mode output resolution. With output root B, structure kept
and recursion on, the candidate A/sub/x.wav maps to B/sub/x.mp3; with
structure preservation off, or recursion off, it flattens to B/x.mp3; with
no output root it maps to the sibling A/sub/x.mp3. -/
theorem directory_output_resolution (A B : Path) (ow : Bool) :
    dirOutputPath ⟨some B, ow, true⟩ A true ⟨A.parts ++ ["sub", "x.wav"]⟩
      = some ⟨B.parts ++ ["sub", "x.mp3"]⟩ ∧
    dirOutputPath ⟨some B, ow, false⟩ A true ⟨A.parts ++ ["sub", "x.wav"]⟩
      = some ⟨B.parts ++ ["x.mp3"]⟩ ∧
    dirOutputPath ⟨some B, ow, true⟩ A false ⟨A.parts ++ ["sub", "x.wav"]⟩
      = some ⟨B.parts ++ ["x.mp3"]⟩ ∧
    dirOutputPath ⟨none, ow, true⟩ A true ⟨A.parts ++ ["sub", "x.wav"]⟩
      = some ⟨A.parts ++ ["sub", "x.mp3"]⟩ := by
  refine ⟨?_, ?_, ?_, ?_⟩
  · simp only [dirOutputPath, Bool.and_self, if_true, relativeTo_append, Option.map_some]
    rfl
  · simp only [dirOutputPath, Bool.false_and, Bool.and_false, if_false]
    rw [stem_append_sub_xwav]
    rfl
  · simp only [dirOutputPath, Bool.false_and, Bool.and_false, if_false]
    rw [stem_append_sub_xwav]
    rfl
  · simp only [dirOutputPath, Path.withSuffix]
    rw [stem_append_sub_xwav]
    rw [List.dropLast_append]
    simp [List.append_assoc]

/-- Fixtures for the stem-collision run: two candidates with the same stem in
different subdirectories, a glob oracle enumerating them, and an environment
whose transcodes succeed. -/
def f1 : Path := ⟨["A", "sub1", "x.wav"]⟩

def f2 : Path := ⟨["A", "sub2", "x.flac"]⟩

def fsAB : FS := ⟨[f1, f2], [⟨["A"]⟩, ⟨["A", "sub1"]⟩, ⟨["A", "sub2"]⟩]⟩

def globAB : Path → String → List Path := fun _ pat =>
  if pat = "**/*.wav" then [f1] else if pat = "**/*.flac" then [f2] else []

def envAB : Env := ⟨fun _ => .ok 0 "" "", fun _ _ _ => .ok 0 "" "", globAB⟩

/-- C10: in flattened mode (output root set and structure preservation or
recursion off) any two candidates with equal stems resolve to the identical
output path; concretely, with overwrite false the later of A/sub1/x.wav and
A/sub2/x.flac is skipped as "file exists" after the earlier converts, while
with overwrite true both convert, the transcoder being pointed twice at the
same output B/x.mp3. -/
theorem flattened_stem_collision :
    (∀ (B A f g : Path) (ow ks rcv : Bool), (ks && rcv) = false → Path.stem f = Path.stem g →
      dirOutputPath ⟨some B, ow, ks⟩ A rcv f = dirOutputPath ⟨some B, ow, ks⟩ A rcv g) ∧
    (convert_directory ⟨some ⟨["B"]⟩, false, false⟩ envAB fsAB ⟨["A"]⟩ true
        SUPPORTED_FORMATS).map (fun pr => pr.1.map FileResult.kind)
      = some [RKind.converted, RKind.skipExists] ∧
    (convert_directory ⟨some ⟨["B"]⟩, true, false⟩ envAB fsAB ⟨["A"]⟩ true
        SUPPORTED_FORMATS).map (fun pr => pr.1.map FileResult.kind)
      = some [RKind.converted, RKind.converted] ∧
    (convert_directory ⟨some ⟨["B"]⟩, true, false⟩ envAB fsAB ⟨["A"]⟩ true
        SUPPORTED_FORMATS).map (fun pr => pr.1.map (fun r => r.calls))
      = some [[.transcode f1 ⟨["B", "x.mp3"]⟩ true], [.transcode f2 ⟨["B", "x.mp3"]⟩ true]] := by
  refine ⟨?_, by decide, by decide, by decide⟩
  intro B A f g ow ks rcv hks hstem
  simp [dirOutputPath, hks, hstem]

/-- C10 witness: the general conjunct applied to the two concrete same-stem
candidates in flattened mode. -/
theorem flattened_stem_collision_witness :
    dirOutputPath ⟨some ⟨["B"]⟩, false, false⟩ ⟨["A"]⟩ true f1
      = dirOutputPath ⟨some ⟨["B"]⟩, false, false⟩ ⟨["A"]⟩ true f2 :=
  flattened_stem_collision.1 ⟨["B"]⟩ ⟨["A"]⟩ f1 f2 false false true (by decide) (by decide)

/-- C8: the process exit code is 0 in file mode exactly when the single
conversion succeeded; in directory mode exactly when every produced result is
a success (failures and skips both force 1); and 1 when the input path is
neither an existing file nor a directory. -/
theorem exit_code_summary (args : Args) (env : Env) (fs : FS) (extOrder : List String) :
    (fs.hasFile args.input = true →
      (mainRun args env fs extOrder = 0 ↔
        (convert_file ⟨args.output, args.overwrite, !args.no_structure⟩ env fs args.input
          args.output).1.success = true)) ∧
    (fs.hasFile args.input = false → fs.isDir args.input = true →
      ∀ results fs2,
        convert_directory ⟨args.output, args.overwrite, !args.no_structure⟩ env fs args.input
          (!args.no_recursive) extOrder = some (results, fs2) →
        (mainRun args env fs extOrder = 0 ↔ ∀ r ∈ results, r.success = true)) ∧
    (fs.hasFile args.input = false → fs.isDir args.input = false →
      mainRun args env fs extOrder = 1) := by
  refine ⟨?_, ?_, ?_⟩
  · intro hf
    cases hs : (convert_file ⟨args.output, args.overwrite, !args.no_structure⟩ env fs
        args.input args.output).1.success
    · simp [mainRun, hf, hs]
    · simp [mainRun, hf, hs]
  · intro hf hd results fs2 hcd
    simp only [mainRun, hf, hd, hcd, Bool.false_eq_true, if_false, if_true]
    have hle := List.length_filter_le (fun r => r.success) results
    constructor
    · intro h0
      by_cases hc : results.length - (results.filter (fun r => r.success)).length = 0
      · have hlen : (results.filter (fun r => r.success)).length = results.length := by omega
        exact List.filter_length_eq_length.mp hlen
      · simp [hc] at h0
    · intro hall
      have hlen : (results.filter (fun r => r.success)).length = results.length :=
        List.filter_length_eq_length.mpr hall
      simp [hlen]
  · intro hf hd
    simp [mainRun, hf, hd]

/-- C8 witness: a missing input path exits with 1, and in file mode the exit
code is 0 exactly when the single result succeeded. -/
theorem exit_code_summary_witness :
    mainRun ⟨⟨["nope"]⟩, none, false, false, false⟩ envDown ⟨[], []⟩ [] = 1 ∧
    (mainRun ⟨⟨["a", "b.flac"]⟩, none, false, false, false⟩ envOk
        ⟨[⟨["a", "b.flac"]⟩], []⟩ [] = 0 ↔
      (convert_file ⟨none, false, !false⟩ envOk ⟨[⟨["a", "b.flac"]⟩], []⟩
        ⟨["a", "b.flac"]⟩ none).1.success = true) :=
  ⟨(exit_code_summary ⟨⟨["nope"]⟩, none, false, false, false⟩ envDown ⟨[], []⟩ []).2.2
      (by decide) (by decide),
   (exit_code_summary ⟨⟨["a", "b.flac"]⟩, none, false, false, false⟩ envOk
      ⟨[⟨["a", "b.flac"]⟩], []⟩ []).1 (by decide)⟩

end Audio2mp3
